import Mathlib

/-
Verification of the macosprox VM lifecycle orchestrator
(src/macosprox/vm_creator.py, cli.py, models.py).

Shallow embedding conventions:
- The host filesystem is a `FS` value: an association list of file paths to
  abstract content tokens (a `Nat`; for the raw disk image the token is its
  byte size, which is the only content any property depends on), plus a list
  of existing directories.
- External effects (the Virtualization framework, dd, hdiutil, ssh-keygen,
  arp, shutil.rmtree, the confirmation prompt) are captured by an `Oracle`
  record saying how each external call behaves during the run.
- CPython hashes strings with a per-process randomized hash (PYTHONHASHSEED);
  the value of `hash(s)` is therefore a parameter of the run, modelled as the
  `hash : String -> Int` field of the oracle.
- Machine integers do not overflow in any modelled computation (sizes stay
  far below 2^63), so Nat arithmetic is used directly.
-/

/-- VMStatus enumeration from models.py. -/
inductive VMStatus where
  | created
  | stopped
  | running
  | starting
  | stopping
  | paused
  | pausing
  | resuming
  | error
  | not_configured
  | unknown
deriving DecidableEq, Repr

/-- VMType enumeration from models.py (only linux). -/
inductive VMType where
  | linux
deriving DecidableEq, Repr

/-- VMInfo model from models.py, as returned by create_linux_vm. -/
structure VMInfo where
  name : String
  type : VMType
  cpu_count : Nat
  memory_gb : Nat
  disk_gb : Nat
  disk_path : String
  vm_dir : String
  status : VMStatus
deriving DecidableEq, Repr

/-- One storage attachment assembled by create_linux_vm: the backing file
path of its VZDiskImageStorageDeviceAttachment and the readOnly flag. -/
structure StorageDevice where
  path : String
  readOnly : Bool
deriving DecidableEq, Repr

/-- The eight VZVirtualMachineState platform constants imported by
vm_creator.py, with their numeric values from the Virtualization framework. -/
def VZVirtualMachineStateStopped : Nat := 0

def VZVirtualMachineStateRunning : Nat := 1

def VZVirtualMachineStatePaused : Nat := 2

def VZVirtualMachineStateError : Nat := 3

def VZVirtualMachineStateStarting : Nat := 4

def VZVirtualMachineStatePausing : Nat := 5

def VZVirtualMachineStateResuming : Nat := 6

def VZVirtualMachineStateStopping : Nat := 7

/-- get_vm_state (vm_creator.py:303-320). The handle `vm` is `none` when no
VM has been configured; otherwise it carries the platform state value
returned by `self.vm.state()`. The Python dict `state_map.get(state,
VMStatus.UNKNOWN)` is embedded as a chain of equality tests against the
eight (pairwise distinct) keys. -/
def get_vm_state (vm : Option Nat) : VMStatus :=
  match vm with
  | none => VMStatus.not_configured
  | some state =>
    if state = VZVirtualMachineStateStopped then VMStatus.stopped
    else if state = VZVirtualMachineStateRunning then VMStatus.running
    else if state = VZVirtualMachineStatePaused then VMStatus.paused
    else if state = VZVirtualMachineStateError then VMStatus.error
    else if state = VZVirtualMachineStateStarting then VMStatus.starting
    else if state = VZVirtualMachineStatePausing then VMStatus.pausing
    else if state = VZVirtualMachineStateResuming then VMStatus.resuming
    else if state = VZVirtualMachineStateStopping then VMStatus.stopping
    else VMStatus.unknown

/-- start_vm (vm_creator.py:259-279). `vm` is the configured handle (`none`
when `create_linux_vm` has not run). `raises` says whether the call
`self.vm.startWithCompletionHandler_` raises synchronously; the except arm
absorbs the exception and returns False. -/
def start_vm (vm : Option Nat) (raises : Bool) : Bool :=
  match vm with
  | none => false
  | some _ => if raises then false else true

/-- stop_vm (vm_creator.py:281-301), same shape as start_vm. -/
def stop_vm (vm : Option Nat) (raises : Bool) : Bool :=
  match vm with
  | none => false
  | some _ => if raises then false else true

/-- Two lowercase hex digits, the embedding of Python's format spec 02x
applied to a value below 256. -/
def hex2 (n : Nat) : String :=
  String.mk [Nat.digitChar (n / 16 % 16), Nat.digitChar (n % 16)]

/-- The MAC-address derivation appearing verbatim at vm_creator.py:195
(create_linux_vm) and vm_creator.py:458 (get_vm_ip):
52:54:00:{abs(hash(name)) % 256:02x}:{abs(hash(name + 1)) % 256:02x}:
{abs(hash(name + 2)) % 256:02x} with string salts "1" and "2". The
process hash function is the parameter `h`. -/
def macString (h : String → Int) (name : String) : String :=
  "52:54:00:" ++ hex2 ((h name).natAbs % 256) ++ ":"
    ++ hex2 ((h (name ++ "1")).natAbs % 256) ++ ":"
    ++ hex2 ((h (name ++ "2")).natAbs % 256)

/-- Host filesystem model: files as an association list from absolute path
to an abstract content token (lookup takes the most recent write), and the
set of existing directories. -/
structure FS where
  files : List (String × Nat)
  dirs : List String
deriving DecidableEq, Repr

/-- Content of the file at path `p`, or none when no such file. -/
def fileContent (fs : FS) (p : String) : Option Nat :=
  fs.files.lookup p

/-- Path.exists() for a file. -/
def fileExists (fs : FS) (p : String) : Bool :=
  (fileContent fs p).isSome

/-- Path.exists() / iterdir membership for a directory. -/
def dirExists (fs : FS) (d : String) : Bool :=
  fs.dirs.contains d

/-- Writing (creating or truncating) the file at `p`. -/
def writeFile (fs : FS) (p : String) (c : Nat) : FS :=
  ⟨(p, c) :: fs.files, fs.dirs⟩

/-- Path.mkdir(parents=True, exist_ok=True): a no-op when the directory
already exists. Parent directories are immaterial to every property and are
not tracked. -/
def mkdirp (fs : FS) (d : String) : FS :=
  if dirExists fs d then fs else ⟨fs.files, d :: fs.dirs⟩

/-- Whether path `p` lies in the subtree rooted at directory `d`. -/
def underDir (d p : String) : Bool :=
  p == d || (d ++ "/").isPrefixOf p

/-- shutil.rmtree: removes the directory `d` and everything beneath it. -/
def removeTree (fs : FS) (d : String) : FS :=
  ⟨fs.files.filter (fun kv => !underDir d kv.1),
   fs.dirs.filter (fun x => !underDir d x)⟩

/-- Path.home() / VMs / name (vm_creator.py:111); the home directory is the
fixed token. -/
def vm_dir (name : String) : String := "~/VMs/" ++ name

/-- vm_dir / efi_vars.fd (vm_creator.py:118). -/
def efi_store_path (name : String) : String := vm_dir name ++ "/efi_vars.fd"

/-- vm_dir / name.img (vm_creator.py:137). -/
def disk_path (name : String) : String := vm_dir name ++ "/" ++ name ++ ".img"

/-- vm_dir / cloud-init (vm_creator.py:334). -/
def cloud_init_dir (name : String) : String := vm_dir name ++ "/cloud-init"

/-- cloud_init_dir / user-data (vm_creator.py:399). -/
def user_data_path (name : String) : String := cloud_init_dir name ++ "/user-data"

/-- cloud_init_dir / meta-data (vm_creator.py:408). -/
def meta_data_path (name : String) : String := cloud_init_dir name ++ "/meta-data"

/-- vm_dir / ssh (vm_creator.py:356). -/
def ssh_dir (name : String) : String := vm_dir name ++ "/ssh"

/-- ssh_dir / vm_key (vm_creator.py:358). -/
def private_key_path (name : String) : String := ssh_dir name ++ "/vm_key"

/-- ssh_dir / vm_key.pub (vm_creator.py:359). -/
def public_key_path (name : String) : String := ssh_dir name ++ "/vm_key.pub"

/-- vm_dir / name-cloud-init.iso (vm_creator.py:413). -/
def cloud_init_iso (name : String) : String :=
  vm_dir name ++ "/" ++ name ++ "-cloud-init.iso"

/-- Abstract content tokens for files whose contents no property inspects. -/
def efi_content : Nat := 1

def user_data_content : Nat := 2

def meta_data_content : Nat := 3

def ci_iso_content : Nat := 4

def private_key_content : Nat := 5

def public_key_content : Nat := 6

/-- dd is invoked with bs=1m: one block is 1 MiB (vm_creator.py:437). -/
def dd_block_size : Nat := 1024 * 1024

/-- dd is invoked with count = size_gb * 1024 (vm_creator.py:437). -/
def dd_count (size_gb : Nat) : Nat := size_gb * 1024

/-- Bytes written by dd: block size times block count. -/
def dd_bytes (size_gb : Nat) : Nat := dd_block_size * dd_count size_gb

/-- The argv of the dd invocation in _create_disk_image (vm_creator.py:435-438). -/
def dd_args (path : String) (size_gb : Nat) : List String :=
  ["dd", "if=/dev/zero", "of=" ++ path, "bs=1m",
   "count=" ++ toString (size_gb * 1024)]

/-- External-effect oracle for one orchestrator run: how each external call
behaves. `hash` is the process string-hash function (CPython randomizes it
per process via the hash seed). -/
structure Oracle where
  hash : String → Int
  efiOk : Bool
  ddOk : Bool
  keygenOk : Bool
  hdiutilOk : Bool
  ciAttachOk : Bool
  validateOk : Bool
  platformState : Nat
  arp : Except Unit (List String)
  rmtreeOk : Bool
  confirmYes : Bool

/-- Embeds _create_disk_image (vm_creator.py:428-442): runs dd (zero-fill of
dd_bytes size_gb bytes at `p`); a CalledProcessError is logged and
re-raised. -/
def create_disk_image (o : Oracle) (fs : FS) (p : String) (size_gb : Nat) :
    Except String FS :=
  if o.ddOk then Except.ok (writeFile fs p (dd_bytes size_gb))
  else Except.error "Failed to create disk image"

/-- EFI variable store step of create_linux_vm (vm_creator.py:117-132):
create the store only when absent, otherwise load the existing one; a
creation error raises. -/
def efiStep (o : Oracle) (fs : FS) (name : String) : Except String FS :=
  if fileExists fs (efi_store_path name) then Except.ok fs
  else if o.efiOk then Except.ok (writeFile fs (efi_store_path name) efi_content)
  else Except.error "Failed to create EFI variable store"

/-- Disk image step of create_linux_vm (vm_creator.py:137-141): create the
image via _create_disk_image only when no file exists at its path. -/
def diskStep (o : Oracle) (fs : FS) (name : String) (size_gb : Nat) :
    Except String FS :=
  if fileExists fs (disk_path name) then Except.ok fs
  else create_disk_image o fs (disk_path name) size_gb

/-- SSH-key section of _create_cloud_init_iso (vm_creator.py:350-369): with
a caller key nothing is touched; otherwise the key pair is generated with
ssh-keygen only when no private key exists yet (check=True: a keygen
failure raises). -/
def keyStep (o : Oracle) (fs : FS) (name : String) (ssh_key : Option String) :
    Except String FS :=
  match ssh_key with
  | some _ => Except.ok fs
  | none =>
    let fs1 := mkdirp fs (ssh_dir name)
    if fileExists fs1 (private_key_path name) then Except.ok fs1
    else if o.keygenOk then
      Except.ok (writeFile (writeFile fs1 (private_key_path name) private_key_content)
        (public_key_path name) public_key_content)
    else Except.error "ssh-keygen failed"

/-- Embeds _create_cloud_init_iso (vm_creator.py:322-426): stage user-data and
meta-data as plain files, then pack them with hdiutil (check=True: failure
raises after the staging writes). Payload text contents are abstracted to
tokens; no property inspects them. -/
def create_cloud_init_iso (o : Oracle) (fs : FS) (name : String)
    (ssh_key : Option String) : Except String String × FS :=
  let fs1 := mkdirp fs (cloud_init_dir name)
  match keyStep o fs1 name ssh_key with
  | Except.error e => (Except.error e, fs1)
  | Except.ok fs2 =>
    let fs3 := writeFile (writeFile fs2 (user_data_path name) user_data_content)
      (meta_data_path name) meta_data_content
    if o.hdiutilOk then
      (Except.ok (cloud_init_iso name), writeFile fs3 (cloud_init_iso name) ci_iso_content)
    else (Except.error "Failed to create cloud-init ISO", fs3)

/-- Cloud-init section of create_linux_vm (vm_creator.py:166-184): any
exception from building or attaching the payload is caught and the VM build
continues with the storage list unchanged; when the ISO was built, exists,
and attaches, it is appended read-only. -/
def ciStep (o : Oracle) (fs : FS) (name : String) (ssh_key : Option String)
    (storage : List StorageDevice) : List StorageDevice × FS :=
  match create_cloud_init_iso o fs name ssh_key with
  | (Except.error _, fs1) => (storage, fs1)
  | (Except.ok p, fs1) =>
    if fileExists fs1 p then
      if o.ciAttachOk then (storage ++ [⟨p, true⟩], fs1)
      else (storage, fs1)
    else (storage, fs1)

/-- The optional install-image attachment (vm_creator.py:155-164): attached
read-only exactly when an ISO path was supplied and the file exists. -/
def isoDevices (fs : FS) (op : Option String) : List StorageDevice :=
  match op with
  | some p => if fileExists fs p then [⟨p, true⟩] else []
  | none => []

/-- Arguments of create_linux_vm (vm_creator.py:73-80) with their Python
default values. -/
structure CreateArgs where
  name : String
  cpu_count : Nat := 2
  memory_size_gb : Nat := 4
  disk_size_gb : Nat := 20
  iso_path : Option String := none
  ssh_key : Option String := none
  auto_install : Bool := false

/-- The CreateArgs for a call `create_linux_vm(name=n)` (all defaults), as
issued by the start/stop/status/delete/ssh CLI commands. -/
def defaultArgs (n : String) : CreateArgs :=
  { name := n }

/-- The VMInfo value returned on success (vm_creator.py:244-253). -/
def mkVMInfo (a : CreateArgs) : VMInfo :=
  ⟨a.name, VMType.linux, a.cpu_count, a.memory_size_gb, a.disk_size_gb,
   disk_path a.name, vm_dir a.name, VMStatus.created⟩

/-- Result of one create_linux_vm call: the returned VMInfo together with
the assembled storage-device list and the MAC string set on the network
adapter (held in the validated configuration object). -/
structure CreateOutcome where
  info : VMInfo
  storage : List StorageDevice
  mac : String
deriving DecidableEq, Repr

/-- create_linux_vm (vm_creator.py:73-257). Steps in source order: make the
working directory; create-or-load the EFI variable store (failure raises);
create the disk image when absent (failure raises); assemble storage with
the primary disk first read-write, then the install ISO read-only when the
path is given and the file exists, then best-effort cloud-init when
auto_install is set; derive the MAC from the name via the process hash;
validate (failure raises); return a created VMInfo. The outer except arm
only logs and re-raises, so raises surface as Except.error. -/
def create_linux_vm (o : Oracle) (fs : FS) (a : CreateArgs) :
    Except String CreateOutcome × FS :=
  let fs1 := mkdirp fs (vm_dir a.name)
  match efiStep o fs1 a.name with
  | Except.error e => (Except.error e, fs1)
  | Except.ok fs2 =>
    match diskStep o fs2 a.name a.disk_size_gb with
    | Except.error e => (Except.error e, fs2)
    | Except.ok fs3 =>
      let withIso : List StorageDevice :=
        ⟨disk_path a.name, false⟩ :: isoDevices fs3 a.iso_path
      let sres := if a.auto_install then ciStep o fs3 a.name a.ssh_key withIso
        else (withIso, fs3)
      if o.validateOk then
        (Except.ok ⟨mkVMInfo a, sres.1, macString o.hash a.name⟩, sres.2)
      else
        (Except.error "VM configuration validation failed", sres.2)

/-- delete_vm (vm_creator.py:495-516): False when the working directory does
not exist; otherwise rmtree, with any exception absorbed into False. -/
def delete_vm (o : Oracle) (fs : FS) (vm_name : String) : Bool × FS :=
  if dirExists fs (vm_dir vm_name) then
    if o.rmtreeOk then (true, removeTree fs (vm_dir vm_name))
    else (false, fs)
  else (false, fs)

/-- Outcome of the CLI delete command (cli.py:279-355). -/
inductive DeleteOutcome where
  | notFound
  | loadError
  | blocked
  | cancelled
  | deleted
  | failed
deriving DecidableEq, Repr

/-- The CLI delete command (cli.py:279-355): existence check against
list_vms (membership of the name among the immediate subdirectories of the
VM root, i.e. dirExists of its working directory); load the configuration
with create_linux_vm(name=vm_name) (an exception exits with an error);
refuse when the live state is running or starting; confirm unless --force;
then delete_vm. The file listing printed before confirmation is read-only. -/
def cliDelete (o : Oracle) (fs : FS) (vm_name : String) (force : Bool) :
    DeleteOutcome × FS :=
  if dirExists fs (vm_dir vm_name) = false then (DeleteOutcome.notFound, fs)
  else
    match create_linux_vm o fs (defaultArgs vm_name) with
    | (Except.error _, fs1) => (DeleteOutcome.loadError, fs1)
    | (Except.ok _, fs1) =>
      let st := get_vm_state (some o.platformState)
      if st = VMStatus.running ∨ st = VMStatus.starting then
        (DeleteOutcome.blocked, fs1)
      else if force = false ∧ o.confirmYes = false then
        (DeleteOutcome.cancelled, fs1)
      else
        let r := delete_vm o fs1 vm_name
        (if r.1 then DeleteOutcome.deleted else DeleteOutcome.failed, r.2)

/-- str.lower() on the character list of a string (ASCII content). -/
def lowerChars (cs : List Char) : List Char :=
  cs.map Char.toLower

/-- The maximal leading run of ASCII digits and the remainder, the
deterministic reading of a greedy backslash-d-plus item whose follower is a
non-digit literal. -/
def digitsSplit (cs : List Char) : List Char × List Char :=
  (cs.takeWhile Char.isDigit, cs.dropWhile Char.isDigit)

/-- One octet of the IP pattern: at least one digit, consumed greedily. -/
def matchOctet (cs : List Char) : Option (List Char × List Char) :=
  let p := digitsSplit cs
  if p.1.isEmpty then none else some p

/-- Attempt to match the regex of vm_creator.py:466 - an open paren, four
digit runs separated by dots, a close paren - at the head of `cs`,
returning the captured dotted group. Greedy digit runs followed by
non-digit literals make the match deterministic, so no backtracking is
modelled. -/
def matchIpAt (cs : List Char) : Option (List Char) :=
  match cs with
  | '(' :: r0 =>
    match matchOctet r0 with
    | none => none
    | some (d1, r1) =>
      match r1 with
      | '.' :: r1b =>
        match matchOctet r1b with
        | none => none
        | some (d2, r2) =>
          match r2 with
          | '.' :: r2b =>
            match matchOctet r2b with
            | none => none
            | some (d3, r3) =>
              match r3 with
              | '.' :: r3b =>
                match matchOctet r3b with
                | none => none
                | some (d4, r4) =>
                  match r4 with
                  | ')' :: _ =>
                    some (d1 ++ '.' :: d2 ++ '.' :: d3 ++ '.' :: d4)
                  | _ => none
              | _ => none
          | _ => none
      | _ => none
  | _ => none

/-- re.search for the IP pattern: leftmost match, trying each start
position from the left. -/
def ipSearch : List Char → Option (List Char)
  | [] => none
  | c :: rest =>
    match matchIpAt (c :: rest) with
    | some ip => some ip
    | none => ipSearch rest

/-- Python substring membership (needle in hay): some contiguous run of
`hay` equals `needle`. -/
def containsSub (needle : List Char) : List Char → Bool
  | [] => needle.isEmpty
  | c :: rest => needle.isPrefixOf (c :: rest) || containsSub needle rest

/-- The scan loop of get_vm_ip (vm_creator.py:462-468): for each output
line, if the lowered MAC occurs in the lowered line, search it for the IP
pattern and return the group on a hit; a matching line without a parseable
IP is skipped and the loop continues. -/
def findIp (mac : List Char) : List String → Option String
  | [] => none
  | l :: ls =>
    if containsSub (lowerChars mac) (lowerChars l.data) then
      match ipSearch l.data with
      | some ip => some (String.mk ip)
      | none => findIp mac ls
    else findIp mac ls

/-- Statement of the spec sentence for address discovery, phrased
independently of the loop: the first line that both contains the hardware
address (case-insensitively) and parses to an IPv4 address, mapped through
the parse. -/
def spec_first_ip (mac : List Char) (lines : List String) : Option String :=
  match lines.find? (fun l =>
      containsSub (lowerChars mac) (lowerChars l.data) && (ipSearch l.data).isSome) with
  | some l => (ipSearch l.data).map String.mk
  | none => none

/-- get_vm_ip (vm_creator.py:445-474): None when the working directory does
not exist; otherwise recompute the MAC with the process hash, run arp -a
(an exception from the invocation is absorbed into None by the outer
except arm), and scan its output lines. The oracle supplies the arp output
already split into lines. -/
def get_vm_ip (o : Oracle) (fs : FS) (vm_name : String) : Option String :=
  if dirExists fs (vm_dir vm_name) = false then none
  else
    let mac := macString o.hash vm_name
    match o.arp with
    | Except.error _ => none
    | Except.ok lines => findIp mac.data lines

/-- Witness fixtures: a fully succeeding oracle whose process hash is
constantly 0 and whose platform reports the running state. -/
def oracleA : Oracle :=
  { hash := fun _ => 0
    efiOk := true
    ddOk := true
    keygenOk := true
    hdiutilOk := true
    ciAttachOk := true
    validateOk := true
    platformState := VZVirtualMachineStateRunning
    arp := Except.ok []
    rmtreeOk := true
    confirmYes := true }

/-- The empty filesystem. -/
def fsEmpty : FS := ⟨[], []⟩

/-- A filesystem holding a fully provisioned working directory for the VM
named vm. -/
def fsVm : FS :=
  ⟨[(efi_store_path "vm", efi_content), (disk_path "vm", dd_bytes 20)],
   [vm_dir "vm"]⟩

/-- Fixture: arguments requesting an install image and auto-install, with a
caller-supplied public key. -/
def argsB : CreateArgs :=
  { name := "vm"
    iso_path := some "/tmp/u.iso"
    ssh_key := some "k"
    auto_install := true }

/-- Fixture: a filesystem holding only the install image. -/
def fsIso : FS := ⟨[("/tmp/u.iso", 7)], []⟩

/-- Fixture: the outcome of building argsB on fsIso under oracleA. -/
def outB : CreateOutcome :=
  ⟨mkVMInfo argsB,
   [⟨disk_path "vm", false⟩, ⟨"/tmp/u.iso", true⟩, ⟨cloud_init_iso "vm", true⟩],
   macString oracleA.hash "vm"⟩

/-- Fixture: one arp -a output line carrying the MAC derived for the name
vm under the constant-zero hash. -/
def arpLine : String := "? (10.0.0.5) at 52:54:00:00:00:00 on en0"

/-- Fixture: the all-success oracle with that one arp line. -/
def oracleB : Oracle := { oracleA with arp := Except.ok [arpLine] }

/- Basic filesystem lemmas. -/

theorem fileContent_mkdirp (fs : FS) (d p : String) :
    fileContent (mkdirp fs d) p = fileContent fs p := by
  unfold mkdirp fileContent
  split <;> rfl

theorem fileExists_mkdirp (fs : FS) (d p : String) :
    fileExists (mkdirp fs d) p = fileExists fs p := by
  unfold fileExists
  rw [fileContent_mkdirp]

theorem fileContent_writeFile_self (fs : FS) (p : String) (c : Nat) :
    fileContent (writeFile fs p c) p = some c := by
  simp [fileContent, writeFile, List.lookup]

theorem fileContent_writeFile_ne (fs : FS) (q p : String) (c : Nat) (h : p ≠ q) :
    fileContent (writeFile fs q c) p = fileContent fs p := by
  have hb : (p == q) = false := beq_eq_false_iff_ne.mpr h
  simp [fileContent, writeFile, List.lookup, hb]

theorem fileExists_writeFile_self (fs : FS) (p : String) (c : Nat) :
    fileExists (writeFile fs p c) p = true := by
  simp [fileExists, fileContent_writeFile_self]

theorem fileExists_writeFile_of (fs : FS) (q p : String) (c : Nat)
    (h : fileExists fs p = true) : fileExists (writeFile fs q c) p = true := by
  by_cases hpq : p = q
  · subst hpq; exact fileExists_writeFile_self fs p c
  · rw [fileExists, fileContent_writeFile_ne fs q p c hpq]; exact h

theorem dirExists_writeFile (fs : FS) (p : String) (c : Nat) (d : String) :
    dirExists (writeFile fs p c) d = dirExists fs d := rfl

theorem mkdirp_of_dirExists (fs : FS) (d : String) (h : dirExists fs d = true) :
    mkdirp fs d = fs := by
  unfold mkdirp
  rw [if_pos h]

theorem dirExists_removeTree_self (fs : FS) (d : String) :
    dirExists (removeTree fs d) d = false := by
  simp only [dirExists, removeTree]
  refine Bool.eq_false_iff.mpr ?_
  intro h
  have h2 : List.elem d (fs.dirs.filter (fun x => !underDir d x)) = true := h
  have hm := List.elem_iff.mp h2
  have hp := (List.mem_filter.mp hm).2
  simp [underDir] at hp

/- C1 helpers: nothing further needed, macString is the shared derivation. -/

/-- C1: the claim asserts the derived hardware address is a pure function of
the VM name under any two runtime hash seeds. The derivation uses the
process string hash; with two hash functions (as produced by two CPython
hash seeds) the same name yields two different address strings, so the
address is not seed-independent. This exhibits the divergence at the name
vm with hash values 0 and 1. -/
theorem mac_depends_on_process_hash :
    macString (fun _ => 0) "vm" ≠ macString (fun _ => 1) "vm" := by decide

/-- C5: for a positive size in GB, a successful _create_disk_image produces
a file of exactly size_gb * 2^30 bytes (dd writes dd_block_size *
dd_count size_gb bytes, with bs=1m and count = size_gb * 1024). -/
theorem disk_image_exact_size (o : Oracle) (fs : FS) (p : String) (n : Nat)
    (hn : 0 < n) (hdd : o.ddOk = true) :
    ∃ fs2, create_disk_image o fs p n = Except.ok fs2 ∧
      fileContent fs2 p = some (dd_bytes n) ∧ dd_bytes n = n * 2 ^ 30 := by
  refine ⟨writeFile fs p (dd_bytes n), ?_, fileContent_writeFile_self fs p _, ?_⟩
  · unfold create_disk_image
    rw [if_pos hdd]
  · unfold dd_bytes dd_block_size dd_count
    ring

theorem disk_image_exact_size_witness :
    0 < 20 ∧ (oracleA.ddOk = true) ∧
    ∃ fs2, create_disk_image oracleA fsEmpty "~/VMs/vm/vm.img" 20 = Except.ok fs2 ∧
      fileContent fs2 "~/VMs/vm/vm.img" = some (dd_bytes 20) ∧
      dd_bytes 20 = 20 * 2 ^ 30 :=
  ⟨by decide, rfl, disk_image_exact_size oracleA fsEmpty "~/VMs/vm/vm.img" 20
    (by decide) rfl⟩

/-- The list of the eight known platform state values. -/
def knownPlatformStates : List Nat :=
  [VZVirtualMachineStateStopped, VZVirtualMachineStateRunning,
   VZVirtualMachineStatePaused, VZVirtualMachineStateError,
   VZVirtualMachineStateStarting, VZVirtualMachineStatePausing,
   VZVirtualMachineStateResuming, VZVirtualMachineStateStopping]

/-- C6: get_vm_state is total; with no configured handle it returns
not_configured, each of the eight known platform states maps to its
corresponding run state, and every other platform value maps to unknown. -/
theorem get_vm_state_total_mapping :
    get_vm_state none = VMStatus.not_configured ∧
    get_vm_state (some VZVirtualMachineStateStopped) = VMStatus.stopped ∧
    get_vm_state (some VZVirtualMachineStateRunning) = VMStatus.running ∧
    get_vm_state (some VZVirtualMachineStatePaused) = VMStatus.paused ∧
    get_vm_state (some VZVirtualMachineStateError) = VMStatus.error ∧
    get_vm_state (some VZVirtualMachineStateStarting) = VMStatus.starting ∧
    get_vm_state (some VZVirtualMachineStatePausing) = VMStatus.pausing ∧
    get_vm_state (some VZVirtualMachineStateResuming) = VMStatus.resuming ∧
    get_vm_state (some VZVirtualMachineStateStopping) = VMStatus.stopping ∧
    ∀ s : Nat, s ∉ knownPlatformStates → get_vm_state (some s) = VMStatus.unknown := by
  refine ⟨rfl, rfl, rfl, rfl, rfl, rfl, rfl, rfl, rfl, ?_⟩
  intro s hs
  simp only [knownPlatformStates, List.mem_cons, List.not_mem_nil, or_false,
    not_or] at hs
  obtain ⟨h0, h1, h2, h3, h4, h5, h6, h7⟩ := hs
  simp [get_vm_state, h0, h1, h2, h3, h4, h5, h6, h7]

theorem get_vm_state_total_mapping_witness :
    (99 : Nat) ∉ knownPlatformStates ∧ get_vm_state (some 99) = VMStatus.unknown :=
  ⟨by decide, get_vm_state_total_mapping.2.2.2.2.2.2.2.2.2 99 (by decide)⟩

/-- C7: with no configured VM handle, start_vm and stop_vm return False
(and, being total functions, never raise); and when the platform request
raises, the exception is absorbed into a False return. -/
theorem start_stop_refuse_without_vm :
    ∀ (vm : Option Nat) (r : Bool),
      start_vm none r = false ∧ stop_vm none r = false ∧
      start_vm vm true = false ∧ stop_vm vm true = false := by
  intro vm r
  refine ⟨rfl, rfl, ?_, ?_⟩ <;> cases vm <;> rfl

/-- C10: delete_vm is total (never raises) and returns a Bool: False with
no deletion when the working directory is absent, False when rmtree fails,
and True exactly when the directory existed and was removed. -/
theorem delete_vm_total_spec (o : Oracle) (fs : FS) (vm_name : String) :
    (dirExists fs (vm_dir vm_name) = false → delete_vm o fs vm_name = (false, fs)) ∧
    (o.rmtreeOk = false → (delete_vm o fs vm_name).1 = false) ∧
    ((delete_vm o fs vm_name).1 = true →
      dirExists fs (vm_dir vm_name) = true ∧
      dirExists (delete_vm o fs vm_name).2 (vm_dir vm_name) = false) := by
  unfold delete_vm
  refine ⟨fun h => ?_, fun h => ?_, fun h => ?_⟩
  · rw [if_neg (by simp [h])]
  · by_cases hd : dirExists fs (vm_dir vm_name) = true
    · rw [if_pos hd, if_neg (by simp [h])]
    · rw [if_neg hd]
  · by_cases hd : dirExists fs (vm_dir vm_name) = true
    · refine ⟨hd, ?_⟩
      rw [if_pos hd] at h ⊢
      by_cases hr : o.rmtreeOk = true
      · rw [if_pos hr]
        exact dirExists_removeTree_self fs (vm_dir vm_name)
      · rw [if_neg hr] at h
        exact absurd h (by simp)
    · rw [if_neg hd] at h
      exact absurd h (by simp)

theorem delete_vm_total_spec_witness :
    (delete_vm oracleA fsVm "vm").1 = true ∧
    dirExists fsVm (vm_dir "vm") = true ∧
    dirExists (delete_vm oracleA fsVm "vm").2 (vm_dir "vm") = false :=
  ⟨by decide, ((delete_vm_total_spec oracleA fsVm "vm").2.2 (by decide)).1,
   ((delete_vm_total_spec oracleA fsVm "vm").2.2 (by decide)).2⟩

/- Path disequality machinery: two strings with different equal-length
suffixes differ, whatever their prefixes. -/

theorem append_tail_ne (s t a b : String) (hlen : a.data.length = b.data.length)
    (hne : a ≠ b) : s ++ a ≠ t ++ b := by
  intro he
  apply hne
  have hd : s.data ++ a.data = t.data ++ b.data := by
    have h2 := congrArg String.data he
    simpa [String.data_append] using h2
  have hr : a.data.reverse ++ s.data.reverse = b.data.reverse ++ t.data.reverse := by
    have h3 := congrArg List.reverse hd
    simpa [List.reverse_append] using h3
  have hlen2 : a.data.reverse.length = b.data.reverse.length := by
    simp [List.length_reverse, hlen]
  have hrev : a.data.reverse = b.data.reverse := (List.append_inj hr hlen2).1
  have hdata : a.data = b.data := by
    have h4 := congrArg List.reverse hrev
    simpa using h4
  exact congrArg String.mk hdata

/- Each path rewritten to expose a four-character suffix. -/

theorem efi_split (n : String) :
    efi_store_path n = (vm_dir n ++ "/efi_var") ++ "s.fd" := by
  unfold efi_store_path
  rw [String.append_assoc]
  congr 1

theorem user_data_split (n : String) :
    user_data_path n = (cloud_init_dir n ++ "/user-") ++ "data" := by
  unfold user_data_path
  rw [String.append_assoc]
  congr 1

theorem meta_data_split (n : String) :
    meta_data_path n = (cloud_init_dir n ++ "/meta-") ++ "data" := by
  unfold meta_data_path
  rw [String.append_assoc]
  congr 1

theorem private_key_split (n : String) :
    private_key_path n = (ssh_dir n ++ "/vm") ++ "_key" := by
  unfold private_key_path
  rw [String.append_assoc]
  congr 1

theorem public_key_split (n : String) :
    public_key_path n = (ssh_dir n ++ "/vm_key") ++ ".pub" := by
  unfold public_key_path
  rw [String.append_assoc]
  congr 1

theorem cloud_init_iso_split (n : String) :
    cloud_init_iso n = ((vm_dir n ++ "/" ++ n) ++ "-cloud-init") ++ ".iso" := by
  unfold cloud_init_iso
  conv_rhs => rw [String.append_assoc]
  congr 1

/- The EFI store path and disk image path differ from every path the
cloud-init builder writes, for every VM name. -/

theorem efi_ne_user_data (n : String) : efi_store_path n ≠ user_data_path n := by
  rw [efi_split, user_data_split]
  exact append_tail_ne _ _ _ _ (by decide) (by decide)

theorem efi_ne_meta_data (n : String) : efi_store_path n ≠ meta_data_path n := by
  rw [efi_split, meta_data_split]
  exact append_tail_ne _ _ _ _ (by decide) (by decide)

theorem efi_ne_ci_iso (n : String) : efi_store_path n ≠ cloud_init_iso n := by
  rw [efi_split, cloud_init_iso_split]
  exact append_tail_ne _ _ _ _ (by decide) (by decide)

theorem efi_ne_private_key (n : String) : efi_store_path n ≠ private_key_path n := by
  rw [efi_split, private_key_split]
  exact append_tail_ne _ _ _ _ (by decide) (by decide)

theorem efi_ne_public_key (n : String) : efi_store_path n ≠ public_key_path n := by
  rw [efi_split, public_key_split]
  exact append_tail_ne _ _ _ _ (by decide) (by decide)

theorem disk_ne_user_data (n : String) : disk_path n ≠ user_data_path n := by
  rw [user_data_split]
  exact append_tail_ne _ _ _ _ (by decide) (by decide)

theorem disk_ne_meta_data (n : String) : disk_path n ≠ meta_data_path n := by
  rw [meta_data_split]
  exact append_tail_ne _ _ _ _ (by decide) (by decide)

theorem disk_ne_ci_iso (n : String) : disk_path n ≠ cloud_init_iso n := by
  rw [cloud_init_iso_split]
  exact append_tail_ne _ _ _ _ (by decide) (by decide)

theorem disk_ne_private_key (n : String) : disk_path n ≠ private_key_path n := by
  rw [private_key_split]
  exact append_tail_ne _ _ _ _ (by decide) (by decide)

theorem disk_ne_public_key (n : String) : disk_path n ≠ public_key_path n := by
  rw [public_key_split]
  exact append_tail_ne _ _ _ _ (by decide) (by decide)

/- Step lemmas for the create pipeline. -/

theorem efiStep_of_exists (o : Oracle) (fs : FS) (name : String)
    (h : fileExists fs (efi_store_path name) = true) :
    efiStep o fs name = Except.ok fs := by
  unfold efiStep
  rw [if_pos h]

theorem efiStep_ok_cases (o : Oracle) (fs : FS) (name : String) (fs2 : FS)
    (h : efiStep o fs name = Except.ok fs2) :
    fs2 = fs ∨ fs2 = writeFile fs (efi_store_path name) efi_content := by
  unfold efiStep at h
  by_cases h1 : fileExists fs (efi_store_path name) = true
  · rw [if_pos h1] at h
    exact Or.inl (Except.ok.inj h).symm
  · rw [if_neg h1] at h
    by_cases h2 : o.efiOk = true
    · rw [if_pos h2] at h
      exact Or.inr (Except.ok.inj h).symm
    · rw [if_neg h2] at h
      exact absurd h (by simp)

theorem efiStep_ok_of_efiOk (o : Oracle) (fs : FS) (name : String)
    (h : o.efiOk = true) :
    ∃ fs2, efiStep o fs name = Except.ok fs2 ∧
      (fs2 = fs ∨ fs2 = writeFile fs (efi_store_path name) efi_content) := by
  unfold efiStep
  by_cases h1 : fileExists fs (efi_store_path name) = true
  · exact ⟨fs, by rw [if_pos h1], Or.inl rfl⟩
  · exact ⟨writeFile fs (efi_store_path name) efi_content,
      by rw [if_neg h1, if_pos h], Or.inr rfl⟩

theorem efiStep_exists_after (o : Oracle) (fs : FS) (name : String) (fs2 : FS)
    (h : efiStep o fs name = Except.ok fs2) :
    fileExists fs2 (efi_store_path name) = true := by
  unfold efiStep at h
  by_cases h1 : fileExists fs (efi_store_path name) = true
  · rw [if_pos h1] at h
    rw [← Except.ok.inj h]
    exact h1
  · rw [if_neg h1] at h
    by_cases h2 : o.efiOk = true
    · rw [if_pos h2] at h
      rw [← Except.ok.inj h]
      exact fileExists_writeFile_self fs _ _
    · rw [if_neg h2] at h
      exact absurd h (by simp)

theorem diskStep_of_exists (o : Oracle) (fs : FS) (name : String) (g : Nat)
    (h : fileExists fs (disk_path name) = true) :
    diskStep o fs name g = Except.ok fs := by
  unfold diskStep
  rw [if_pos h]

theorem diskStep_ok_cases (o : Oracle) (fs : FS) (name : String) (g : Nat)
    (fs2 : FS) (h : diskStep o fs name g = Except.ok fs2) :
    fs2 = fs ∨ fs2 = writeFile fs (disk_path name) (dd_bytes g) := by
  unfold diskStep create_disk_image at h
  by_cases h1 : fileExists fs (disk_path name) = true
  · rw [if_pos h1] at h
    exact Or.inl (Except.ok.inj h).symm
  · rw [if_neg h1] at h
    by_cases h2 : o.ddOk = true
    · rw [if_pos h2] at h
      exact Or.inr (Except.ok.inj h).symm
    · rw [if_neg h2] at h
      exact absurd h (by simp)

theorem diskStep_ok_of_ddOk (o : Oracle) (fs : FS) (name : String) (g : Nat)
    (h : o.ddOk = true) :
    ∃ fs2, diskStep o fs name g = Except.ok fs2 ∧
      (fs2 = fs ∨ fs2 = writeFile fs (disk_path name) (dd_bytes g)) := by
  unfold diskStep create_disk_image
  by_cases h1 : fileExists fs (disk_path name) = true
  · exact ⟨fs, by rw [if_pos h1], Or.inl rfl⟩
  · exact ⟨writeFile fs (disk_path name) (dd_bytes g),
      by rw [if_neg h1, if_pos h], Or.inr rfl⟩

theorem diskStep_exists_after (o : Oracle) (fs : FS) (name : String) (g : Nat)
    (fs2 : FS) (h : diskStep o fs name g = Except.ok fs2) :
    fileExists fs2 (disk_path name) = true := by
  unfold diskStep create_disk_image at h
  by_cases h1 : fileExists fs (disk_path name) = true
  · rw [if_pos h1] at h
    rw [← Except.ok.inj h]
    exact h1
  · rw [if_neg h1] at h
    by_cases h2 : o.ddOk = true
    · rw [if_pos h2] at h
      rw [← Except.ok.inj h]
      exact fileExists_writeFile_self fs _ _
    · rw [if_neg h2] at h
      exact absurd h (by simp)

theorem keyStep_ok_preserves (o : Oracle) (fs : FS) (name : String)
    (key : Option String) (fs2 : FS) (p : String)
    (h : keyStep o fs name key = Except.ok fs2)
    (h4 : p ≠ private_key_path name) (h5 : p ≠ public_key_path name) :
    fileContent fs2 p = fileContent fs p := by
  unfold keyStep at h
  cases key with
  | some k =>
    rw [← Except.ok.inj h]
  | none =>
    simp only at h
    by_cases h1 : fileExists (mkdirp fs (ssh_dir name)) (private_key_path name) = true
    · rw [if_pos h1] at h
      rw [← Except.ok.inj h, fileContent_mkdirp]
    · rw [if_neg h1] at h
      by_cases h2 : o.keygenOk = true
      · rw [if_pos h2] at h
        rw [← Except.ok.inj h, fileContent_writeFile_ne _ _ _ _ h5,
          fileContent_writeFile_ne _ _ _ _ h4, fileContent_mkdirp]
      · rw [if_neg h2] at h
        exact absurd h (by simp)

theorem keyStep_ok_mono (o : Oracle) (fs : FS) (name : String)
    (key : Option String) (fs2 : FS) (p : String)
    (h : keyStep o fs name key = Except.ok fs2)
    (hp : fileExists fs p = true) : fileExists fs2 p = true := by
  unfold keyStep at h
  cases key with
  | some k =>
    rw [← Except.ok.inj h]
    exact hp
  | none =>
    simp only at h
    by_cases h1 : fileExists (mkdirp fs (ssh_dir name)) (private_key_path name) = true
    · rw [if_pos h1] at h
      rw [← Except.ok.inj h, fileExists_mkdirp]
      exact hp
    · rw [if_neg h1] at h
      by_cases h2 : o.keygenOk = true
      · rw [if_pos h2] at h
        rw [← Except.ok.inj h]
        refine fileExists_writeFile_of _ _ _ _ (fileExists_writeFile_of _ _ _ _ ?_)
        rw [fileExists_mkdirp]
        exact hp
      · rw [if_neg h2] at h
        exact absurd h (by simp)

theorem cci_preserves (o : Oracle) (fs : FS) (name : String)
    (key : Option String) (p : String)
    (h1 : p ≠ user_data_path name) (h2 : p ≠ meta_data_path name)
    (h3 : p ≠ cloud_init_iso name) (h4 : p ≠ private_key_path name)
    (h5 : p ≠ public_key_path name) :
    fileContent (create_cloud_init_iso o fs name key).2 p = fileContent fs p := by
  unfold create_cloud_init_iso
  cases hk : keyStep o (mkdirp fs (cloud_init_dir name)) name key with
  | error e =>
    simp only [hk, fileContent_mkdirp]
  | ok fs2 =>
    have hkp : fileContent fs2 p = fileContent fs p := by
      rw [keyStep_ok_preserves o _ name key fs2 p hk h4 h5, fileContent_mkdirp]
    simp only [hk]
    by_cases hh : o.hdiutilOk = true
    · rw [if_pos hh]
      simp only
      rw [fileContent_writeFile_ne _ _ _ _ h3, fileContent_writeFile_ne _ _ _ _ h2,
        fileContent_writeFile_ne _ _ _ _ h1, hkp]
    · rw [if_neg hh]
      simp only
      rw [fileContent_writeFile_ne _ _ _ _ h2, fileContent_writeFile_ne _ _ _ _ h1, hkp]

theorem cci_mono (o : Oracle) (fs : FS) (name : String)
    (key : Option String) (p : String) (hp : fileExists fs p = true) :
    fileExists (create_cloud_init_iso o fs name key).2 p = true := by
  unfold create_cloud_init_iso
  have hp1 : fileExists (mkdirp fs (cloud_init_dir name)) p = true := by
    rw [fileExists_mkdirp]
    exact hp
  cases hk : keyStep o (mkdirp fs (cloud_init_dir name)) name key with
  | error e =>
    simp only [hk]
    exact hp1
  | ok fs2 =>
    have hkp : fileExists fs2 p = true := keyStep_ok_mono o _ name key fs2 p hk hp1
    simp only [hk]
    by_cases hh : o.hdiutilOk = true
    · rw [if_pos hh]
      simp only
      exact fileExists_writeFile_of _ _ _ _ (fileExists_writeFile_of _ _ _ _
        (fileExists_writeFile_of _ _ _ _ hkp))
    · rw [if_neg hh]
      simp only
      exact fileExists_writeFile_of _ _ _ _ (fileExists_writeFile_of _ _ _ _ hkp)

theorem ciStep_snd_preserves (o : Oracle) (fs : FS) (name : String)
    (key : Option String) (storage : List StorageDevice) (p : String)
    (h1 : p ≠ user_data_path name) (h2 : p ≠ meta_data_path name)
    (h3 : p ≠ cloud_init_iso name) (h4 : p ≠ private_key_path name)
    (h5 : p ≠ public_key_path name) :
    fileContent (ciStep o fs name key storage).2 p = fileContent fs p := by
  unfold ciStep
  have hcc := cci_preserves o fs name key p h1 h2 h3 h4 h5
  cases hr : create_cloud_init_iso o fs name key with
  | mk r fs1 =>
    rw [hr] at hcc
    cases r with
    | error e =>
      simpa using hcc
    | ok q =>
      simp only
      by_cases he : fileExists fs1 q = true
      · rw [if_pos he]
        by_cases ha : o.ciAttachOk = true
        · rw [if_pos ha]
          simpa using hcc
        · rw [if_neg ha]
          simpa using hcc
      · rw [if_neg he]
        simpa using hcc

theorem ciStep_snd_mono (o : Oracle) (fs : FS) (name : String)
    (key : Option String) (storage : List StorageDevice) (p : String)
    (hp : fileExists fs p = true) :
    fileExists (ciStep o fs name key storage).2 p = true := by
  unfold ciStep
  have hcc := cci_mono o fs name key p hp
  cases hr : create_cloud_init_iso o fs name key with
  | mk r fs1 =>
    rw [hr] at hcc
    cases r with
    | error e =>
      simpa using hcc
    | ok q =>
      simp only
      by_cases he : fileExists fs1 q = true
      · rw [if_pos he]
        by_cases ha : o.ciAttachOk = true
        · rw [if_pos ha]
          simpa using hcc
        · rw [if_neg ha]
          simpa using hcc
      · rw [if_neg he]
        simpa using hcc

theorem ciStep_storage_cases (o : Oracle) (fs : FS) (name : String)
    (key : Option String) (storage : List StorageDevice) :
    (ciStep o fs name key storage).1 = storage ∨
    (ciStep o fs name key storage).1 = storage ++ [⟨cloud_init_iso name, true⟩] := by
  unfold ciStep
  cases hr : create_cloud_init_iso o fs name key with
  | mk r fs1 =>
    cases r with
    | error e =>
      exact Or.inl rfl
    | ok q =>
      have hq : q = cloud_init_iso name := by
        unfold create_cloud_init_iso at hr
        cases hk : keyStep o (mkdirp fs (cloud_init_dir name)) name key with
        | error e2 =>
          simp only [hk, Prod.mk.injEq] at hr
          exact absurd hr.1 (by simp)
        | ok fs2 =>
          simp only [hk] at hr
          by_cases hh : o.hdiutilOk = true
          · rw [if_pos hh] at hr
            have hr1 := (Prod.mk.injEq _ _ _ _ ▸ hr).1
            exact (Except.ok.inj hr1).symm
          · rw [if_neg hh] at hr
            have hr1 := (Prod.mk.injEq _ _ _ _ ▸ hr).1
            exact absurd hr1 (by simp)
      subst hq
      simp only
      by_cases he : fileExists fs1 (cloud_init_iso name) = true
      · rw [if_pos he]
        by_cases ha : o.ciAttachOk = true
        · rw [if_pos ha]
          exact Or.inr rfl
        · rw [if_neg ha]
          exact Or.inl rfl
      · rw [if_neg he]
        exact Or.inl rfl

/- Normal forms of create_linux_vm according to how its two fatal steps
resolve. -/

theorem create_efi_error (o : Oracle) (fs : FS) (a : CreateArgs) (e : String)
    (hE : efiStep o (mkdirp fs (vm_dir a.name)) a.name = Except.error e) :
    create_linux_vm o fs a = (Except.error e, mkdirp fs (vm_dir a.name)) := by
  unfold create_linux_vm
  simp only [hE]

theorem create_disk_error (o : Oracle) (fs : FS) (a : CreateArgs) (fs2 : FS)
    (e : String)
    (hE : efiStep o (mkdirp fs (vm_dir a.name)) a.name = Except.ok fs2)
    (hD : diskStep o fs2 a.name a.disk_size_gb = Except.error e) :
    create_linux_vm o fs a = (Except.error e, fs2) := by
  unfold create_linux_vm
  simp only [hE, hD]

theorem create_eq (o : Oracle) (fs : FS) (a : CreateArgs) (fs2 fs3 : FS)
    (hE : efiStep o (mkdirp fs (vm_dir a.name)) a.name = Except.ok fs2)
    (hD : diskStep o fs2 a.name a.disk_size_gb = Except.ok fs3) :
    create_linux_vm o fs a =
      (let withIso : List StorageDevice :=
        ⟨disk_path a.name, false⟩ :: isoDevices fs3 a.iso_path
       let sres := if a.auto_install then ciStep o fs3 a.name a.ssh_key withIso
         else (withIso, fs3)
       if o.validateOk then
         (Except.ok ⟨mkVMInfo a, sres.1, macString o.hash a.name⟩, sres.2)
       else
         (Except.error "VM configuration validation failed", sres.2)) := by
  unfold create_linux_vm
  simp only [hE, hD]

/-- After any successful create_linux_vm, the EFI store and disk image
files exist, validation succeeded, and the returned outcome carries the
hash-derived MAC and the created status. -/
theorem create_ok_facts (o : Oracle) (fs : FS) (a : CreateArgs) (out : CreateOutcome)
    (h : (create_linux_vm o fs a).1 = Except.ok out) :
    fileExists (create_linux_vm o fs a).2 (efi_store_path a.name) = true ∧
    fileExists (create_linux_vm o fs a).2 (disk_path a.name) = true ∧
    o.validateOk = true ∧ out.mac = macString o.hash a.name ∧
    out.info.status = VMStatus.created := by
  cases hE : efiStep o (mkdirp fs (vm_dir a.name)) a.name with
  | error e =>
    rw [create_efi_error o fs a e hE] at h
    exact absurd h (by simp)
  | ok fs2 =>
    cases hD : diskStep o fs2 a.name a.disk_size_gb with
    | error e =>
      rw [create_disk_error o fs a fs2 e hE hD] at h
      exact absurd h (by simp)
    | ok fs3 =>
      have hefi3 : fileExists fs3 (efi_store_path a.name) = true := by
        have h2 := efiStep_exists_after o _ a.name fs2 hE
        rcases diskStep_ok_cases o fs2 a.name a.disk_size_gb fs3 hD with h3 | h3
        · rw [h3]; exact h2
        · rw [h3]; exact fileExists_writeFile_of _ _ _ _ h2
      have hdisk3 : fileExists fs3 (disk_path a.name) = true :=
        diskStep_exists_after o fs2 a.name a.disk_size_gb fs3 hD
      rw [create_eq o fs a fs2 fs3 hE hD] at h ⊢
      by_cases hv : o.validateOk = true
      · cases hai : a.auto_install with
        | false =>
          simp only [hai, hv, Bool.false_eq_true, if_false, if_true] at h ⊢
          rw [Except.ok.injEq] at h
          exact ⟨hefi3, hdisk3, trivial, by rw [← h], by rw [← h]; rfl⟩
        | true =>
          simp only [hai, hv, if_true] at h ⊢
          rw [Except.ok.injEq] at h
          refine ⟨ciStep_snd_mono o fs3 a.name a.ssh_key _ _ hefi3,
            ciStep_snd_mono o fs3 a.name a.ssh_key _ _ hdisk3, trivial,
            by rw [← h], by rw [← h]; rfl⟩
      · simp only [hv, Bool.false_eq_true, if_false] at h
        exact absurd h (by simp)

/-- When the EFI store and disk image already exist, create_linux_vm leaves
their contents untouched and (when validation passes) succeeds with the
hash-derived MAC. -/
theorem create_preserves_existing (o : Oracle) (fs : FS) (a : CreateArgs)
    (hefi : fileExists fs (efi_store_path a.name) = true)
    (hdisk : fileExists fs (disk_path a.name) = true) :
    fileContent (create_linux_vm o fs a).2 (efi_store_path a.name)
      = fileContent fs (efi_store_path a.name) ∧
    fileContent (create_linux_vm o fs a).2 (disk_path a.name)
      = fileContent fs (disk_path a.name) ∧
    (o.validateOk = true → ∃ out, (create_linux_vm o fs a).1 = Except.ok out ∧
      out.mac = macString o.hash a.name) := by
  have hefi1 : fileExists (mkdirp fs (vm_dir a.name)) (efi_store_path a.name) = true := by
    rw [fileExists_mkdirp]; exact hefi
  have hdisk1 : fileExists (mkdirp fs (vm_dir a.name)) (disk_path a.name) = true := by
    rw [fileExists_mkdirp]; exact hdisk
  have hE := efiStep_of_exists o (mkdirp fs (vm_dir a.name)) a.name hefi1
  have hD := diskStep_of_exists o (mkdirp fs (vm_dir a.name)) a.name a.disk_size_gb hdisk1
  rw [create_eq o fs a _ _ hE hD]
  cases hai : a.auto_install with
  | false =>
    by_cases hv : o.validateOk = true
    · simp only [hai, hv, Bool.false_eq_true, if_false, if_true]
      exact ⟨fileContent_mkdirp fs _ _, fileContent_mkdirp fs _ _,
        fun _ => ⟨_, rfl, rfl⟩⟩
    · simp only [hai, hv, Bool.false_eq_true, if_false]
      exact ⟨fileContent_mkdirp fs _ _, fileContent_mkdirp fs _ _,
        fun hc => hc.elim⟩
  | true =>
    have hci1 : fileContent (ciStep o (mkdirp fs (vm_dir a.name)) a.name a.ssh_key
        (⟨disk_path a.name, false⟩ ::
          isoDevices (mkdirp fs (vm_dir a.name)) a.iso_path)).2 (efi_store_path a.name)
        = fileContent fs (efi_store_path a.name) := by
      rw [ciStep_snd_preserves o _ a.name a.ssh_key _ _ (efi_ne_user_data a.name)
        (efi_ne_meta_data a.name) (efi_ne_ci_iso a.name) (efi_ne_private_key a.name)
        (efi_ne_public_key a.name), fileContent_mkdirp]
    have hci2 : fileContent (ciStep o (mkdirp fs (vm_dir a.name)) a.name a.ssh_key
        (⟨disk_path a.name, false⟩ ::
          isoDevices (mkdirp fs (vm_dir a.name)) a.iso_path)).2 (disk_path a.name)
        = fileContent fs (disk_path a.name) := by
      rw [ciStep_snd_preserves o _ a.name a.ssh_key _ _ (disk_ne_user_data a.name)
        (disk_ne_meta_data a.name) (disk_ne_ci_iso a.name) (disk_ne_private_key a.name)
        (disk_ne_public_key a.name), fileContent_mkdirp]
    by_cases hv : o.validateOk = true
    · simp only [hai, hv, if_true]
      exact ⟨hci1, hci2, fun _ => ⟨_, rfl, rfl⟩⟩
    · simp only [hai, hv, Bool.false_eq_true, if_false, if_true]
      exact ⟨hci1, hci2, fun hc => hc.elim⟩

/- Projection lemmas for the all-defaults argument record. -/

theorem defaultArgs_name (n : String) : (defaultArgs n).name = n := rfl

theorem defaultArgs_iso (n : String) : (defaultArgs n).iso_path = none := rfl

theorem defaultArgs_auto (n : String) : (defaultArgs n).auto_install = false := rfl

theorem defaultArgs_ssh (n : String) : (defaultArgs n).ssh_key = none := rfl

/-- C4: building the same VM a second time is idempotent for the on-disk
resources: after a successful first build, the second build leaves the
disk-image file and the EFI variable-store file unchanged (they are created
only when absent), succeeds, and derives the same hardware address within
the same process (same process hash function). -/
theorem create_twice_idempotent (o : Oracle) (fs : FS) (a : CreateArgs)
    (out1 : CreateOutcome) (h1 : (create_linux_vm o fs a).1 = Except.ok out1) :
    fileContent (create_linux_vm o (create_linux_vm o fs a).2 a).2 (disk_path a.name)
      = fileContent (create_linux_vm o fs a).2 (disk_path a.name) ∧
    fileContent (create_linux_vm o (create_linux_vm o fs a).2 a).2 (efi_store_path a.name)
      = fileContent (create_linux_vm o fs a).2 (efi_store_path a.name) ∧
    ∃ out2, (create_linux_vm o (create_linux_vm o fs a).2 a).1 = Except.ok out2 ∧
      out2.mac = out1.mac := by
  obtain ⟨hef, hdk, hval, hmac, _⟩ := create_ok_facts o fs a out1 h1
  obtain ⟨p1, p2, p3⟩ := create_preserves_existing o (create_linux_vm o fs a).2 a hef hdk
  obtain ⟨out2, ho, hm⟩ := p3 hval
  exact ⟨p2, p1, out2, ho, by rw [hm, hmac]⟩

theorem create_twice_idempotent_witness :
    (create_linux_vm oracleA fsEmpty (defaultArgs "vm")).1
      = Except.ok ⟨mkVMInfo (defaultArgs "vm"), [⟨disk_path "vm", false⟩],
          macString oracleA.hash "vm"⟩ ∧
    (fileContent (create_linux_vm oracleA (create_linux_vm oracleA fsEmpty
        (defaultArgs "vm")).2 (defaultArgs "vm")).2 (disk_path "vm")
      = fileContent (create_linux_vm oracleA fsEmpty (defaultArgs "vm")).2 (disk_path "vm") ∧
    fileContent (create_linux_vm oracleA (create_linux_vm oracleA fsEmpty
        (defaultArgs "vm")).2 (defaultArgs "vm")).2 (efi_store_path "vm")
      = fileContent (create_linux_vm oracleA fsEmpty (defaultArgs "vm")).2 (efi_store_path "vm") ∧
    ∃ out2, (create_linux_vm oracleA (create_linux_vm oracleA fsEmpty
        (defaultArgs "vm")).2 (defaultArgs "vm")).1 = Except.ok out2 ∧
      out2.mac = (⟨mkVMInfo (defaultArgs "vm"), [⟨disk_path "vm", false⟩],
          macString oracleA.hash "vm"⟩ : CreateOutcome).mac) :=
  ⟨rfl, create_twice_idempotent oracleA fsEmpty (defaultArgs "vm") _ rfl⟩

/-- C2: requesting delete of a VM whose live lifecycle state is running or
starting fails with a refusal (the blocking-state exit, or the earlier
configuration-load failure exit) and leaves the filesystem - in particular
the whole working directory - unchanged. The working directory holds its
standard resources (EFI store and disk image), as it does for any VM that
reached the created state. -/
theorem delete_refused_on_live_vm (o : Oracle) (fs : FS) (vm_name : String)
    (force : Bool)
    (hdir : dirExists fs (vm_dir vm_name) = true)
    (hefi : fileExists fs (efi_store_path vm_name) = true)
    (hdisk : fileExists fs (disk_path vm_name) = true)
    (hst : get_vm_state (some o.platformState) = VMStatus.running ∨
           get_vm_state (some o.platformState) = VMStatus.starting) :
    ((cliDelete o fs vm_name force).1 = DeleteOutcome.blocked ∨
     (cliDelete o fs vm_name force).1 = DeleteOutcome.loadError) ∧
    (cliDelete o fs vm_name force).2 = fs := by
  have hM : mkdirp fs (vm_dir vm_name) = fs := mkdirp_of_dirExists fs _ hdir
  have hE : efiStep o (mkdirp fs (vm_dir (defaultArgs vm_name).name))
      (defaultArgs vm_name).name = Except.ok fs := by
    show efiStep o (mkdirp fs (vm_dir vm_name)) vm_name = Except.ok fs
    rw [hM]
    exact efiStep_of_exists o fs vm_name hefi
  have hD : diskStep o fs (defaultArgs vm_name).name
      (defaultArgs vm_name).disk_size_gb = Except.ok fs := by
    show diskStep o fs vm_name (defaultArgs vm_name).disk_size_gb = Except.ok fs
    exact diskStep_of_exists o fs vm_name _ hdisk
  have hc := create_eq o fs (defaultArgs vm_name) fs fs hE hD
  have hclean : create_linux_vm o fs (defaultArgs vm_name) =
      (if o.validateOk then
        (Except.ok ⟨mkVMInfo (defaultArgs vm_name),
          [⟨disk_path vm_name, false⟩], macString o.hash vm_name⟩, fs)
       else (Except.error "VM configuration validation failed", fs)) := by
    rw [hc]
    simp only [defaultArgs_name, defaultArgs_iso, defaultArgs_auto, defaultArgs_ssh,
      isoDevices, Bool.false_eq_true, if_false]
  unfold cliDelete
  rw [if_neg (by rw [hdir]; simp), hclean]
  by_cases hv : o.validateOk = true
  · rw [if_pos hv]
    simp only
    rw [if_pos hst]
    exact ⟨Or.inl rfl, rfl⟩
  · rw [if_neg hv]
    exact ⟨Or.inr rfl, rfl⟩

theorem delete_refused_on_live_vm_witness :
    dirExists fsVm (vm_dir "vm") = true ∧
    fileExists fsVm (efi_store_path "vm") = true ∧
    fileExists fsVm (disk_path "vm") = true ∧
    (get_vm_state (some oracleA.platformState) = VMStatus.running ∨
     get_vm_state (some oracleA.platformState) = VMStatus.starting) ∧
    ((cliDelete oracleA fsVm "vm" true).1 = DeleteOutcome.blocked ∨
     (cliDelete oracleA fsVm "vm" true).1 = DeleteOutcome.loadError) ∧
    (cliDelete oracleA fsVm "vm" true).2 = fsVm :=
  ⟨by decide, by decide, by decide, Or.inl (by decide),
   (delete_refused_on_live_vm oracleA fsVm "vm" true (by decide) (by decide)
     (by decide) (Or.inl (by decide))).1,
   (delete_refused_on_live_vm oracleA fsVm "vm" true (by decide) (by decide)
     (by decide) (Or.inl (by decide))).2⟩

theorem fileExists_writeFile_ne (fs : FS) (q p : String) (c : Nat) (h : p ≠ q) :
    fileExists (writeFile fs q c) p = fileExists fs p := by
  rw [fileExists, fileContent_writeFile_ne fs q p c h, fileExists]

/-- When the first-boot payload build or attach fails - hdiutil failing,
the attachment constructor raising, or ssh-keygen failing (relevant when no
caller key was supplied and no generated key exists yet) - the storage list
leaves ciStep unchanged. -/
theorem ciStep_storage_of_failure (o : Oracle) (fs : FS) (name : String)
    (key : Option String) (storage : List StorageDevice)
    (hfail : o.hdiutilOk = false ∨ o.ciAttachOk = false ∨
      (o.keygenOk = false ∧ key = none ∧
        fileExists fs (private_key_path name) = false)) :
    (ciStep o fs name key storage).1 = storage := by
  rcases hfail with hh | ha | ⟨hkg, hkey, hpk⟩
  · unfold ciStep create_cloud_init_iso
    cases hks : keyStep o (mkdirp fs (cloud_init_dir name)) name key with
    | error e => simp only [hks]
    | ok fs2 => simp only [hks, hh, Bool.false_eq_true, if_false]
  · unfold ciStep
    cases hr : create_cloud_init_iso o fs name key with
    | mk r fs1 =>
      cases r with
      | error e => rfl
      | ok q =>
        simp only
        by_cases he : fileExists fs1 q = true
        · rw [if_pos he, if_neg (by rw [ha]; simp)]
        · rw [if_neg he]
  · subst hkey
    unfold ciStep create_cloud_init_iso keyStep
    have hpk2 : fileExists (mkdirp (mkdirp fs (cloud_init_dir name)) (ssh_dir name))
        (private_key_path name) = true → False := by
      rw [fileExists_mkdirp, fileExists_mkdirp, hpk]
      simp
    simp only
    rw [if_neg hpk2, if_neg (by rw [hkg]; simp)]

theorem isoDevices_cases (fs : FS) (op : Option String) :
    isoDevices fs op = [] ∨
    ∃ p, op = some p ∧ isoDevices fs op = [⟨p, true⟩] := by
  cases op with
  | none => exact Or.inl rfl
  | some p =>
    by_cases he : fileExists fs p = true
    · exact Or.inr ⟨p, rfl, by simp [isoDevices, he]⟩
    · exact Or.inl (by simp [isoDevices, he])

theorem isoDevices_none (fs : FS) : isoDevices fs none = [] := rfl

/-- C3: with auto-install set, a failure of the first-boot payload build or
attach (hdiutil or ssh-keygen raising, or the attach raising) does not
abort the VM build: create_linux_vm still returns a created VMInfo, and the
assembled storage list holds only the primary disk plus the optional
install image. -/
theorem create_survives_ci_failure (o : Oracle) (fs : FS) (a : CreateArgs)
    (hai : a.auto_install = true)
    (hefi : o.efiOk = true) (hdd : o.ddOk = true) (hval : o.validateOk = true)
    (hfail : o.hdiutilOk = false ∨ o.ciAttachOk = false ∨
      (o.keygenOk = false ∧ a.ssh_key = none ∧
        fileExists fs (private_key_path a.name) = false)) :
    ∃ out, (create_linux_vm o fs a).1 = Except.ok out ∧
      out.info.status = VMStatus.created ∧
      (out.storage = [⟨disk_path a.name, false⟩] ∨
       ∃ p, a.iso_path = some p ∧
         out.storage = [⟨disk_path a.name, false⟩, ⟨p, true⟩]) := by
  obtain ⟨fs2, hE, hE2⟩ := efiStep_ok_of_efiOk o (mkdirp fs (vm_dir a.name)) a.name hefi
  obtain ⟨fs3, hD, hD2⟩ := diskStep_ok_of_ddOk o fs2 a.name a.disk_size_gb hdd
  have hfail3 : o.hdiutilOk = false ∨ o.ciAttachOk = false ∨
      (o.keygenOk = false ∧ a.ssh_key = none ∧
        fileExists fs3 (private_key_path a.name) = false) := by
    rcases hfail with h | h | ⟨h1, h2, h3⟩
    · exact Or.inl h
    · exact Or.inr (Or.inl h)
    · refine Or.inr (Or.inr ⟨h1, h2, ?_⟩)
      have e2 : fileExists fs2 (private_key_path a.name)
          = fileExists fs (private_key_path a.name) := by
        rcases hE2 with h' | h'
        · rw [h', fileExists_mkdirp]
        · rw [h', fileExists_writeFile_ne _ _ _ _ (efi_ne_private_key a.name).symm,
            fileExists_mkdirp]
      have e3 : fileExists fs3 (private_key_path a.name)
          = fileExists fs2 (private_key_path a.name) := by
        rcases hD2 with h' | h'
        · rw [h']
        · rw [h', fileExists_writeFile_ne _ _ _ _ (disk_ne_private_key a.name).symm]
      rw [e3, e2]
      exact h3
  rw [create_eq o fs a fs2 fs3 hE hD]
  simp only [hai, hval, if_true]
  refine ⟨_, rfl, rfl, ?_⟩
  show (ciStep o fs3 a.name a.ssh_key
    (⟨disk_path a.name, false⟩ :: isoDevices fs3 a.iso_path)).1
      = [⟨disk_path a.name, false⟩] ∨ _
  rw [ciStep_storage_of_failure o fs3 a.name a.ssh_key _ hfail3]
  rcases isoDevices_cases fs3 a.iso_path with h | ⟨p, hp, h⟩
  · rw [h]
    exact Or.inl rfl
  · rw [h]
    exact Or.inr ⟨p, hp, rfl⟩

theorem create_survives_ci_failure_witness :
    ({ defaultArgs "vm" with auto_install := true } : CreateArgs).auto_install = true ∧
    ∃ out, (create_linux_vm { oracleA with hdiutilOk := false } fsEmpty
        { defaultArgs "vm" with auto_install := true }).1 = Except.ok out ∧
      out.info.status = VMStatus.created ∧
      (out.storage = [⟨disk_path "vm", false⟩] ∨
       ∃ p, ({ defaultArgs "vm" with auto_install := true } : CreateArgs).iso_path
            = some p ∧
         out.storage = [⟨disk_path "vm", false⟩, ⟨p, true⟩]) :=
  ⟨rfl, create_survives_ci_failure { oracleA with hdiutilOk := false } fsEmpty
    { defaultArgs "vm" with auto_install := true } rfl rfl rfl rfl (Or.inl rfl)⟩

/-- When no caller key is supplied, the ssh-keygen section still succeeds
whenever the generated private key already exists or keygen itself
succeeds; with a caller key it never runs. -/
theorem keyStep_ok_of (o : Oracle) (fs : FS) (name : String) (key : Option String)
    (hk : (∃ k, key = some k) ∨ o.keygenOk = true ∨
      fileExists fs (private_key_path name) = true) :
    ∃ fs2, keyStep o fs name key = Except.ok fs2 := by
  cases key with
  | some k => exact ⟨fs, rfl⟩
  | none =>
    unfold keyStep
    simp only
    by_cases h1 : fileExists (mkdirp fs (ssh_dir name)) (private_key_path name) = true
    · exact ⟨_, by rw [if_pos h1]⟩
    · rcases hk with ⟨k, hk⟩ | hk | hk
      · exact absurd hk (by simp)
      · exact ⟨_, by rw [if_neg h1, if_pos hk]⟩
      · rw [fileExists_mkdirp] at h1
        exact absurd hk h1

/-- When the payload build and attach both go through - hdiutil succeeds,
the attachment constructor does not raise, and the key section succeeds -
ciStep appends the payload image read-only at the end of the storage
list. -/
theorem ciStep_attaches (o : Oracle) (fs : FS) (name : String)
    (key : Option String) (storage : List StorageDevice)
    (hh : o.hdiutilOk = true) (ha : o.ciAttachOk = true)
    (hk : (∃ k, key = some k) ∨ o.keygenOk = true ∨
      fileExists fs (private_key_path name) = true) :
    (ciStep o fs name key storage).1
      = storage ++ [⟨cloud_init_iso name, true⟩] := by
  have hk2 : (∃ k, key = some k) ∨ o.keygenOk = true ∨
      fileExists (mkdirp fs (cloud_init_dir name)) (private_key_path name) = true := by
    rcases hk with h | h | h
    · exact Or.inl h
    · exact Or.inr (Or.inl h)
    · exact Or.inr (Or.inr (by rw [fileExists_mkdirp]; exact h))
  obtain ⟨fs2, hks⟩ := keyStep_ok_of o (mkdirp fs (cloud_init_dir name)) name key hk2
  unfold ciStep create_cloud_init_iso
  simp only [hks, hh, if_true]
  rw [if_pos (fileExists_writeFile_self _ _ _), if_pos ha]

/-- C9: on every successful configuration build the storage list is the
primary disk first and read-write, then the optional install image
read-only, then the optional first-boot payload image read-only last -
and nothing else; and the optional attachments are really made: a supplied
install image that exists is attached, and a first-boot payload whose
build and attach go through is attached. -/
theorem storage_order (o : Oracle) (fs : FS) (a : CreateArgs) (out : CreateOutcome)
    (h : (create_linux_vm o fs a).1 = Except.ok out) :
    ∃ isoL ciL,
      out.storage = ⟨disk_path a.name, false⟩ :: (isoL ++ ciL) ∧
      (isoL = [] ∨ ∃ p, a.iso_path = some p ∧ isoL = [⟨p, true⟩]) ∧
      (ciL = [] ∨ ciL = [⟨cloud_init_iso a.name, true⟩]) ∧
      (a.iso_path = none → isoL = []) ∧
      (a.auto_install = false → ciL = []) ∧
      (∀ p, a.iso_path = some p → fileExists fs p = true → isoL = [⟨p, true⟩]) ∧
      (a.auto_install = true → o.hdiutilOk = true → o.ciAttachOk = true →
        ((∃ k, a.ssh_key = some k) ∨ o.keygenOk = true ∨
          fileExists fs (private_key_path a.name) = true) →
        ciL = [⟨cloud_init_iso a.name, true⟩]) := by
  cases hE : efiStep o (mkdirp fs (vm_dir a.name)) a.name with
  | error e =>
    rw [create_efi_error o fs a e hE] at h
    exact absurd h (by simp)
  | ok fs2 =>
    cases hD : diskStep o fs2 a.name a.disk_size_gb with
    | error e =>
      rw [create_disk_error o fs a fs2 e hE hD] at h
      exact absurd h (by simp)
    | ok fs3 =>
      have hmono : ∀ q, fileExists fs q = true → fileExists fs3 q = true := by
        intro q hq
        have h2 : fileExists fs2 q = true := by
          rcases efiStep_ok_cases o _ a.name fs2 hE with h' | h'
          · rw [h', fileExists_mkdirp]
            exact hq
          · rw [h']
            exact fileExists_writeFile_of _ _ _ _ (by rw [fileExists_mkdirp]; exact hq)
        rcases diskStep_ok_cases o fs2 a.name a.disk_size_gb fs3 hD with h' | h'
        · rw [h']
          exact h2
        · rw [h']
          exact fileExists_writeFile_of _ _ _ _ h2
      have hisoPos : ∀ p, a.iso_path = some p → fileExists fs p = true →
          isoDevices fs3 a.iso_path = [⟨p, true⟩] := by
        intro p hp hex
        rw [hp]
        simp [isoDevices, hmono p hex]
      have hkPos : ((∃ k, a.ssh_key = some k) ∨ o.keygenOk = true ∨
          fileExists fs (private_key_path a.name) = true) →
          ((∃ k, a.ssh_key = some k) ∨ o.keygenOk = true ∨
            fileExists fs3 (private_key_path a.name) = true) := by
        rintro (hx | hx | hx)
        · exact Or.inl hx
        · exact Or.inr (Or.inl hx)
        · exact Or.inr (Or.inr (hmono _ hx))
      rw [create_eq o fs a fs2 fs3 hE hD] at h
      by_cases hv : o.validateOk = true
      · simp only [hv, if_true] at h
        rw [Except.ok.injEq] at h
        cases hai : a.auto_install with
        | false =>
          simp only [hai, Bool.false_eq_true, if_false] at h
          refine ⟨isoDevices fs3 a.iso_path, [], ?_,
            isoDevices_cases fs3 a.iso_path, Or.inl rfl,
            fun h0 => by rw [h0]; rfl, fun _ => rfl, hisoPos,
            fun hcon => by simp [hai] at hcon⟩
          rw [← h]
          simp
        | true =>
          simp only [hai, if_true] at h
          rcases ciStep_storage_cases o fs3 a.name a.ssh_key
            (⟨disk_path a.name, false⟩ :: isoDevices fs3 a.iso_path) with hcs | hcs
          · refine ⟨isoDevices fs3 a.iso_path, [], ?_,
              isoDevices_cases fs3 a.iso_path, Or.inl rfl,
              fun h0 => by rw [h0]; rfl, fun _ => rfl, hisoPos,
              fun _ hh ha hk => ?_⟩
            · rw [← h]
              simp [hcs]
            · exact absurd (hcs.symm.trans (ciStep_attaches o fs3 a.name a.ssh_key
                _ hh ha (hkPos hk))) (by simp)
          · refine ⟨isoDevices fs3 a.iso_path, [⟨cloud_init_iso a.name, true⟩], ?_,
              isoDevices_cases fs3 a.iso_path, Or.inr rfl,
              fun h0 => by rw [h0]; rfl,
              fun hcon => by simp [hai] at hcon, hisoPos,
              fun _ _ _ _ => rfl⟩
            rw [← h]
            simp [hcs]
      · simp only [hv, Bool.false_eq_true, if_false] at h
        exact absurd h (by simp)

theorem storage_order_witness :
    (create_linux_vm oracleA fsIso argsB).1 = Except.ok outB ∧
    ∃ isoL ciL,
      outB.storage = ⟨disk_path "vm", false⟩ :: (isoL ++ ciL) ∧
      (isoL = [] ∨ ∃ p, argsB.iso_path = some p ∧ isoL = [⟨p, true⟩]) ∧
      (ciL = [] ∨ ciL = [⟨cloud_init_iso "vm", true⟩]) ∧
      (argsB.iso_path = none → isoL = []) ∧
      (argsB.auto_install = false → ciL = []) ∧
      (∀ p, argsB.iso_path = some p → fileExists fsIso p = true → isoL = [⟨p, true⟩]) ∧
      (argsB.auto_install = true → oracleA.hdiutilOk = true →
        oracleA.ciAttachOk = true →
        ((∃ k, argsB.ssh_key = some k) ∨ oracleA.keygenOk = true ∨
          fileExists fsIso (private_key_path "vm") = true) →
        ciL = [⟨cloud_init_iso "vm", true⟩]) :=
  ⟨rfl, storage_order oracleA fsIso argsB outB rfl⟩

/-- The scan loop of get_vm_ip computes exactly the spec-side description:
the parse of the first line that contains the hardware address and parses
to an IPv4 address. -/
theorem findIp_eq_spec (mac : List Char) (lines : List String) :
    findIp mac lines = spec_first_ip mac lines := by
  induction lines with
  | nil => rfl
  | cons l ls ih =>
    unfold findIp spec_first_ip
    by_cases hm : containsSub (lowerChars mac) (lowerChars l.data) = true
    · rw [if_pos hm]
      cases hip : ipSearch l.data with
      | some ip =>
        have hpred : (containsSub (lowerChars mac) (lowerChars l.data)
            && (ipSearch l.data).isSome) = true := by
          rw [hm, hip]
          rfl
        rw [List.find?_cons]
        simp [hpred, hip, hm]
      | none =>
        have hpred : (containsSub (lowerChars mac) (lowerChars l.data)
            && (ipSearch l.data).isSome) = false := by
          rw [hip]
          simp
        rw [List.find?_cons]
        simp only [hpred]
        rw [ih, spec_first_ip]
    · rw [if_neg hm]
      rw [Bool.not_eq_true] at hm
      have hpred : (containsSub (lowerChars mac) (lowerChars l.data)
          && (ipSearch l.data).isSome) = false := by
        rw [hm]
        simp
      rw [List.find?_cons]
      simp only [hpred]
      rw [ih, spec_first_ip]

/-- C8 counterexample: with the working directory missing, get_vm_ip
returns None even though the neighbor table holds a line containing the
derived hardware address from which an IPv4 address parses - the claim as
stated would require that address to be returned for every VM name. -/
theorem get_vm_ip_missing_dir_cex :
    get_vm_ip oracleB fsEmpty "vm" = none ∧
    spec_first_ip (macString oracleB.hash "vm").data [arpLine] = some "10.0.0.5" :=
  ⟨rfl, by decide⟩

/-- C8 (amended): for every VM name whose working directory exists,
get_vm_ip returns the first IPv4 address parsed from a neighbor-table line
containing the derived hardware address (case-insensitively), and None -
never raising - when no line matches or the lookup tool invocation fails;
when the working directory does not exist it returns None regardless. -/
theorem get_vm_ip_spec (o : Oracle) (fs : FS) (vm_name : String)
    (hdir : dirExists fs (vm_dir vm_name) = true) :
    (o.arp = Except.error () → get_vm_ip o fs vm_name = none) ∧
    (∀ lines, o.arp = Except.ok lines →
      get_vm_ip o fs vm_name
        = spec_first_ip (macString o.hash vm_name).data lines) := by
  unfold get_vm_ip
  rw [if_neg (by rw [hdir]; simp)]
  constructor
  · intro ha
    simp only [ha]
  · intro lines ha
    simp only [ha]
    exact findIp_eq_spec _ _

theorem get_vm_ip_spec_witness :
    dirExists fsVm (vm_dir "vm") = true ∧
    get_vm_ip oracleB fsVm "vm"
      = spec_first_ip (macString oracleB.hash "vm").data [arpLine] :=
  ⟨by decide, (get_vm_ip_spec oracleB fsVm "vm" (by decide)).2 [arpLine] rfl⟩
